import Mathlib

/-!
Verification of the aperture-photometry pipeline core
(`aperture_photometry_pipeline.ipynb`).

The program is shallowly embedded: pixel coordinates are integers, pixel
intensities are rationals (the source's floating-point arithmetic read over
an exact number field), the per-frame loop's mutable state is passed
explicitly, and the external `photutils` aperture-summation routine is
abstracted as a per-frame measurement oracle.
-/

namespace AperturePhotometry

/-- A pixel position `(x, y)` as held in the `positions` array of the source. -/
abbrev Pos := Int × Int

/-!
## Centroid tracker: position clamping (`find_objects_stats`, clamp chain)

The source clamps each position with the if/elif chain

  if positions[i][1] - offset < 0:            positions[i][1] = offset
  elif positions[i][1] + offset >= len(data): positions[i][1] = len(data) - offset - 1
  elif positions[i][0] - offset < 0:          positions[i][0] = 0
  elif positions[i][0] + offset >= len(data[0]): positions[i][0] = len(data[0]) - offset - 1

where `len(data)` is the frame height and `len(data[0])` the frame width.
-/

/-- The clamp chain of `find_objects_stats`, translated branch for branch.
`h` is the frame height, `w` the width, `off` the search half-width. -/
def clampPos (h w off : Int) (p : Pos) : Pos :=
  if p.2 - off < 0 then (p.1, off)
  else if h ≤ p.2 + off then (p.1, h - off - 1)
  else if p.1 - off < 0 then (0, p.2)
  else if w ≤ p.1 + off then (w - off - 1, p.2)
  else p

/-- The spec's formulation of the clamp: an ordered list of (condition, result)
rules, evaluated top to bottom.  Each entry is the rule's guard together with
the position it would produce. -/
def clampRuleList (h w off : Int) (p : Pos) : List (Bool × Pos) :=
  [(decide (p.2 - off < 0), (p.1, off)),
   (decide (h ≤ p.2 + off), (p.1, h - off - 1)),
   (decide (p.1 - off < 0), (0, p.2)),
   (decide (w ≤ p.1 + off), (w - off - 1, p.2))]

/-- Apply exactly the first rule of the list whose guard holds; skip all later
rules; leave the position unchanged when no guard holds. -/
def applyFirstRule (rules : List (Bool × Pos)) (p : Pos) : Pos :=
  match rules.find? (fun r => r.1) with
  | some r => r.2
  | none => p

/-- The slice bounds `(ylo, yhi, xlo, xhi)` of the search window
`data[y-offset : y+offset, x-offset : x+offset]` as computed by
`find_objects_stats` after clamping. -/
def windowBounds (h w off : Int) (p : Pos) : Int × Int × Int × Int :=
  ((clampPos h w off p).2 - off, (clampPos h w off p).2 + off,
   (clampPos h w off p).1 - off, (clampPos h w off p).1 + off)

/-- The window's slice bounds all lie inside the frame: the `y` slice stays
within `[0, h]` and the `x` slice within `[0, w]`. -/
def windowInBounds (h w off : Int) (p : Pos) : Prop :=
  0 ≤ (windowBounds h w off p).1 ∧ (windowBounds h w off p).2.1 ≤ h ∧
    0 ≤ (windowBounds h w off p).2.2.1 ∧ (windowBounds h w off p).2.2.2 ≤ w

instance (h w off : Int) (p : Pos) : Decidable (windowInBounds h w off p) := by
  unfold windowInBounds
  infer_instance

/-- C1: the clamp applies exactly the first matching rule of the ordered list
(y-low, y-high, x-low, x-high) and skips the later rules; in particular when
`y - offset < 0` the clamped position is exactly `(x, offset)`, even when `x`
is also out of range. -/
theorem C1_clamp_first_match (h w off : Int) (x y : Int) :
    clampPos h w off (x, y) = applyFirstRule (clampRuleList h w off (x, y)) (x, y) ∧
    (y - off < 0 → clampPos h w off (x, y) = (x, off)) := by
  constructor
  · by_cases h1 : y - off < 0 <;>
      by_cases h2 : h ≤ y + off <;>
        by_cases h3 : x - off < 0 <;>
          by_cases h4 : w ≤ x + off <;>
            simp [clampPos, clampRuleList, applyFirstRule, h1, h2, h3, h4]
  · intro h1
    simp [clampPos, h1]

/-- Witness for C1 at a concrete corner position where both `y` and `x` are
out of range low: only the `y` rule fires. -/
theorem C1_clamp_first_match_witness :
    (3 : Int) - 10 < 0 ∧ clampPos 30 40 10 (-5, 3) = (-5, 10) :=
  ⟨by decide, (C1_clamp_first_match 30 40 10 (-5) 3).2 (by decide)⟩

/-- C3 counterexample: at frame 30×30 with offset 10 and position (5, 15),
no `y` rule fires, the `x`-low rule sets `x = 0`, and the window's left slice
bound is `-10 < 0`: the window does not lie inside the frame. -/
theorem C3_window_counterexample : ¬ windowInBounds 30 30 10 (5, 15) := by
  decide

/-- C3 amended: after clamping, the `y` slice bounds always lie inside
`[0, height]` (whenever `height ≥ 2·offset + 1`); the `x` slice bounds lie
inside `[0, width]` only when neither `y` rule fires and `x - offset ≥ 0`
(whenever `width ≥ 2·offset + 1`). -/
theorem C3_window_bounds_amended (h w off x y : Int)
    (hh : 2 * off + 1 ≤ h) (hw : 2 * off + 1 ≤ w) :
    (0 ≤ (windowBounds h w off (x, y)).1 ∧ (windowBounds h w off (x, y)).2.1 ≤ h) ∧
    (0 ≤ y - off → y + off < h → 0 ≤ x - off →
      0 ≤ (windowBounds h w off (x, y)).2.2.1 ∧ (windowBounds h w off (x, y)).2.2.2 ≤ w) := by
  unfold windowBounds clampPos
  constructor
  · split_ifs <;> (simp only [] ; omega)
  · intro hy1 hy2 hx
    split_ifs <;> (simp only [] ; omega)

/-- Witness for C3 amended at a concrete in-range position. -/
theorem C3_window_bounds_amended_witness :
    (2 * 10 + 1 ≤ (30 : Int)) ∧
      0 ≤ (windowBounds 30 30 10 (15, 15)).1 ∧ (windowBounds 30 30 10 (15, 15)).2.1 ≤ 30 :=
  ⟨by decide, (C3_window_bounds_amended 30 30 10 15 15 (by decide) (by decide)).1⟩

/-!
## Centroid computation (`centroid`)

  def centroid(arr):
      x_sum = 0; y_sum = 0
      for i in range(len(arr)):
          for j in range(len(arr[i])):
              x_sum += arr[i][j] * j
              y_sum += arr[i][j] * i
      x_com = x_sum / np.sum(arr)
      y_com = y_sum / np.sum(arr)
      return x_com, y_com

The window is a list of rows of rationals.  The division is by the total
window sum; when that sum is zero the source divides zero by zero, which in
its floating-point arithmetic produces NaN (with only a RuntimeWarning), and
the subsequent `int(cen[...])` peak lookup then raises.  The embedding
returns `none` for that degenerate case.
-/

/-- `np.sum(arr)`: the sum of every value of the window. -/
def npSum (arr : List (List ℚ)) : ℚ :=
  (arr.map List.sum).sum

/-- `x_sum`: for each cell at row `i`, column `j`, accumulate `value * j`. -/
def xMoment (arr : List (List ℚ)) : ℚ :=
  (arr.map (fun row => ((row.enum).map (fun c => c.2 * (c.1 : ℚ))).sum)).sum

/-- `y_sum`: for each cell at row `i`, column `j`, accumulate `value * i`. -/
def yMoment (arr : List (List ℚ)) : ℚ :=
  ((arr.enum).map (fun r => r.2.sum * (r.1 : ℚ))).sum

/-- `centroid` from the source.  Returns `none` when `np.sum(arr) = 0`: there
the source's two divisions are by zero (NaN in its floating-point
arithmetic, which is then silently carried into `cen` and makes the
`int(cen[1])` / `int(cen[0])` peak lookup raise a ValueError). -/
def centroid (arr : List (List ℚ)) : Option (ℚ × ℚ) :=
  if npSum arr = 0 then none
  else some (xMoment arr / npSum arr, yMoment arr / npSum arr)

/-- C5: on an all-zero search window (for example any window of a constant
frame after the median sky subtraction) the window sum is zero, so the
centroid computation divides by zero and has no value.  The source does not
surface this as a per-object failure value: it produces NaN and then crashes
at the integer conversion of the centroid. -/
theorem C5_degenerate_window :
    npSum [[0, 0], [0, 0]] = 0 ∧ centroid [[0, 0], [0, 0]] = none := by
  constructor
  · simp [npSum]
  · simp [centroid, npSum]

/-!
## Python `int()` truncation

`int(...)` on a float truncates toward zero; used both by the coordinate
parser (`int(float(...))`) and by the end-of-frame position update
(`positions[i] = [int(xcenter), int(ycenter)]`).
-/

/-- Python `int()` on a number: truncation toward zero. -/
def truncQ (q : ℚ) : Int :=
  if 0 ≤ q then ⌊q⌋ else -⌊-q⌋

/-!
## Magnitude calibration (per-frame loop)

  fluxzero = 10.91926955
  magzero = 22.40441725
  mag = -2.5*(np.log10(phot_table['aperture_sum'] / fluxzero)) + magzero

Embedded over the reals (the claim's exact reading of the floating-point
source).
-/

/-- The flux zero-point constant of the source. -/
noncomputable def fluxzero : ℝ := 10.91926955

/-- The magnitude zero-point constant of the source. -/
noncomputable def magzero : ℝ := 22.40441725

/-- The magnitude computed by the per-frame loop from an aperture sum `s`. -/
noncomputable def apertureMag (s : ℝ) : ℝ :=
  -2.5 * Real.logb 10 (s / fluxzero) + magzero

/-- The inverse map of the claim:
`flux = flux_zero_point * 10 ^ ((mag_zero_point - mag) / 2.5)`. -/
noncomputable def magToFlux (m : ℝ) : ℝ :=
  fluxzero * (10 : ℝ) ^ ((magzero - m) / 2.5)

/-- C6: the magnitude calibrator is invertible on positive fluxes: for every
aperture sum `s > 0`, `flux_zero_point * 10 ^ ((mag_zero_point -
apertureMag s) / 2.5)` recovers `s` exactly over the reals. -/
theorem C6_mag_roundtrip (s : ℝ) (hs : 0 < s) : magToFlux (apertureMag s) = s := by
  have hfz : (0 : ℝ) < fluxzero := by
    unfold fluxzero
    norm_num
  have hq : (0 : ℝ) < s / fluxzero := div_pos hs hfz
  have hexp : (magzero - apertureMag s) / 2.5 = Real.logb 10 (s / fluxzero) := by
    unfold apertureMag
    ring
  unfold magToFlux
  rw [hexp, Real.rpow_logb (by norm_num) (by norm_num) hq]
  field_simp

/-- Witness for C6 at the concrete flux 1. -/
theorem C6_mag_roundtrip_witness : (0 : ℝ) < 1 ∧ magToFlux (apertureMag 1) = 1 :=
  ⟨one_pos, C6_mag_roundtrip 1 one_pos⟩

/-!
## The per-frame loop

State of the loop (the source's module-level mutable variables):

  positions = starting_positions[:,0]       # a VIEW of column 0 (numpy basic slicing)
  starting_positions_index = 0

`starting_positions` has one row per object and one column per hypothesis
round; `positions` is at all times a view of one of its columns, so every
write to `positions` (the in-place clamps of `find_objects_stats` and the
end-of-frame centroid update) writes through into that column.  The state is
embedded as the table itself (`table`), the index of the column `positions`
currently views (`activeCol`), and `starting_positions_index` (`idx`).

The window centroiding and the `photutils.aperture_photometry` call of
`find_objects_stats` depend on the frame's pixel data; `aperture_photometry`
is an external library, so a frame is embedded as its dimensions together
with a measurement oracle `measure` mapping the (already clamped) positions
to the per-object refined centroid and aperture sum, in order.
-/

/-- One measurement row of `phot_table`: the refined centroid
`(xcenter, ycenter)` and the aperture sum of one object. -/
abbrev Meas := (ℚ × ℚ) × ℚ

/-- One frame: its dimensions plus the measurement oracle abstracting the
window centroiding and the external `photutils` aperture summation
(assumed non-degenerate; the degenerate zero-sum window is treated
separately with `centroid`). -/
structure FrameData where
  height : Int
  width : Int
  measure : List Pos → List Meas

/-- The mutable state of the per-frame loop. -/
structure LoopState where
  table : List (List Pos)
  activeCol : Nat
  idx : Nat

/-- The loop state before the first frame:
`positions = starting_positions[:,0]` and `starting_positions_index = 0`. -/
def initState (table0 : List (List Pos)) : LoopState :=
  ⟨table0, 0, 0⟩

/-- Column `j` of the hypothesis table: `starting_positions[:,j]`. -/
def col (t : List (List Pos)) (j : Nat) : List Pos :=
  t.map (fun row => row.getD j (0, 0))

/-- Write `ps` into column `j` of the hypothesis table, row by row: the
effect of assigning through the numpy view `positions` when it views column
`j`. -/
def writeCol : List (List Pos) → Nat → List Pos → List (List Pos)
  | [], _, _ => []
  | _ :: _, _, [] => []
  | r :: t, j, p :: ps => r.set j p :: writeCol t j ps

/-- `find_objects_stats`: clamps every position in place (the clamped
positions are the first component, written back through the `positions`
view by the caller's state), then measures every object at its clamped
position. -/
def findObjectsStats (off : Int) (f : FrameData) (ps : List Pos) :
    List Pos × List Meas :=
  (ps.map (clampPos f.height f.width off),
   f.measure (ps.map (clampPos f.height f.width off)))

/-- The negativity test of the track-loss check:
`any(i < 0 for i in phot_table["aperture_sum"])` applied to one row. -/
def negSum (m : Meas) : Bool :=
  decide (m.2 < 0)

/-- The first `find_objects_stats` call of a frame, on the column currently
viewed by `positions`. -/
def firstPass (off : Int) (f : FrameData) (s : LoopState) : List Pos × List Meas :=
  findObjectsStats off f (col s.table s.activeCol)

/-- The hypothesis table after the first pass's in-place clamps have written
through the `positions` view. -/
def tableAfterClamp (off : Int) (f : FrameData) (s : LoopState) : List (List Pos) :=
  writeCol s.table s.activeCol (firstPass off f s).1

/-- The retry `find_objects_stats` call of a frame, on
`starting_positions[:,starting_positions_index]` after the pointer has
advanced to `s.idx + 1`. -/
def retryPass (off : Int) (f : FrameData) (s : LoopState) : List Pos × List Meas :=
  findObjectsStats off f (col (tableAfterClamp off f s) (s.idx + 1))

/-- `int(phot_table["xcenter"][i]), int(phot_table["ycenter"][i])`: the
integer-truncated refined centroid written back into `positions` at the end
of a frame. -/
def truncCentroid (m : Meas) : Pos :=
  (truncQ m.1.1, truncQ m.1.2)

/-- One iteration of the per-frame loop, from `find_objects_stats` through
the track-loss retry to the end-of-frame position update.  `nR` is
`len(starting_positions[0])`, the number of hypothesis rounds.  Returns the
new loop state and the frame's recorded measurement rows (the rows of the
`phot_table` that is appended to `aperture_table`). -/
def runFrame (off : Int) (nR : Nat) (f : FrameData) (s : LoopState) :
    LoopState × List Meas :=
  if (firstPass off f s).2.any negSum then
    if s.idx + 1 < nR then
      (⟨writeCol (writeCol (tableAfterClamp off f s) (s.idx + 1) (retryPass off f s).1)
          (s.idx + 1) ((retryPass off f s).2.map truncCentroid),
        s.idx + 1, s.idx + 1⟩,
       (retryPass off f s).2)
    else
      (⟨writeCol (tableAfterClamp off f s) s.activeCol
          ((firstPass off f s).2.map truncCentroid),
        s.activeCol, s.idx + 1⟩,
       (firstPass off f s).2)
  else
    (⟨writeCol (tableAfterClamp off f s) s.activeCol
        ((firstPass off f s).2.map truncCentroid),
      s.activeCol, s.idx⟩,
     (firstPass off f s).2)

/-- The whole routine `for file in fits_filenames`: the final loop state and
the per-frame groups of recorded rows, in frame order. -/
def runLoop (off : Int) (nR : Nat) : List FrameData → LoopState → LoopState × List (List Meas)
  | [], s => (s, [])
  | f :: rest, s =>
    ((runLoop off nR rest (runFrame off nR f s).1).1,
     (runFrame off nR f s).2 :: (runLoop off nR rest (runFrame off nR f s).1).2)

/-- `aperture_table` at the end of the run: the `vstack` concatenation of the
per-frame row groups, in frame-processing order. -/
def apertureTable (off : Int) (nR : Nat) (frames : List FrameData) (s : LoopState) :
    List Meas :=
  (runLoop off nR frames s).2.flatten

/-!
## Helper lemmas on columns of the hypothesis table
-/

lemma length_col (t : List (List Pos)) (j : Nat) : (col t j).length = t.length := by
  simp [col]

lemma length_writeCol (t : List (List Pos)) (j : Nat) (ps : List Pos)
    (hlen : ps.length = t.length) : (writeCol t j ps).length = t.length := by
  induction t generalizing ps with
  | nil => simp [writeCol]
  | cons r t ih =>
    cases ps with
    | nil => simp at hlen
    | cons p ps =>
      simp only [writeCol, List.length_cons]
      rw [ih ps (by simpa using hlen)]

lemma rows_writeCol (t : List (List Pos)) (j : Nat) (ps : List Pos) (nR : Nat)
    (hrow : ∀ row ∈ t, row.length = nR) :
    ∀ row ∈ writeCol t j ps, row.length = nR := by
  induction t generalizing ps with
  | nil => simp [writeCol]
  | cons r t ih =>
    cases ps with
    | nil => simp [writeCol]
    | cons p ps =>
      intro row hm
      simp only [writeCol, List.mem_cons] at hm
      rcases hm with h | h
      · subst h
        simpa using hrow r (by simp)
      · exact ih ps (fun row hm => hrow row (by simp [hm])) row h

lemma col_writeCol_self (t : List (List Pos)) (j : Nat) (ps : List Pos)
    (hlen : ps.length = t.length) (hrow : ∀ row ∈ t, j < row.length) :
    col (writeCol t j ps) j = ps := by
  induction t generalizing ps with
  | nil =>
    cases ps with
    | nil => rfl
    | cons p ps => simp at hlen
  | cons r t ih =>
    cases ps with
    | nil => simp at hlen
    | cons p ps =>
      have hr : j < r.length := hrow r (by simp)
      simp only [writeCol, col, List.map_cons]
      rw [List.getD_eq_getElem?_getD, List.getElem?_set_eq_of_lt p hr]
      have := ih ps (by simpa using hlen) (fun row hm => hrow row (by simp [hm]))
      simp only [col] at this
      rw [this]
      rfl

lemma col_writeCol_ne (t : List (List Pos)) (j k : Nat) (ps : List Pos)
    (hlen : ps.length = t.length) (hk : k ≠ j) :
    col (writeCol t j ps) k = col t k := by
  induction t generalizing ps with
  | nil =>
    cases ps <;> rfl
  | cons r t ih =>
    cases ps with
    | nil => simp at hlen
    | cons p ps =>
      simp only [writeCol, col, List.map_cons]
      rw [List.getD_eq_getElem?_getD, List.getElem?_set_ne (fun h => hk h.symm)]
      have := ih ps (by simpa using hlen)
      simp only [col] at this
      rw [this]
      simp

/-!
## Track-loss retry and the hypothesis-index pointer
-/

/-- C2: per frame, if any aperture sum of the first pass is negative the
pointer advances by exactly one; when the new index is still within the
number of hypothesis rounds the frame's recorded rows are those of the
single retry pass, used unconditionally; when no next hypothesis exists the
original negative-sum rows are kept; and if no sum is negative the pointer
is unchanged and the first pass's rows are recorded. -/
theorem C2_track_loss_retry (off : Int) (nR : Nat) (f : FrameData) (s : LoopState) :
    ((firstPass off f s).2.any negSum = false →
      (runFrame off nR f s).1.idx = s.idx ∧
        (runFrame off nR f s).2 = (firstPass off f s).2) ∧
    ((firstPass off f s).2.any negSum = true →
      (runFrame off nR f s).1.idx = s.idx + 1 ∧
      (s.idx + 1 < nR → (runFrame off nR f s).2 = (retryPass off f s).2) ∧
      (¬ s.idx + 1 < nR → (runFrame off nR f s).2 = (firstPass off f s).2)) := by
  unfold runFrame
  split_ifs with h1 h2 <;> simp_all

/-- A concrete frame whose oracle reports a negative aperture sum exactly
when the object's x coordinate is below 10. -/
def frameB : FrameData :=
  ⟨100, 100, fun ps => ps.map (fun p => (((p.1 : ℚ), (p.2 : ℚ)), if p.1 < 10 then -1 else 1))⟩

/-- A concrete loop state with one object and two hypothesis rounds. -/
def s2 : LoopState :=
  ⟨[[(5, 50), (20, 50)]], 0, 0⟩

/-- Witness for C2: at `frameB` from `s2` the first pass is negative, the
pointer advances to 1 < 2, and the recorded rows are the retry pass's. -/
theorem C2_track_loss_retry_witness :
    (firstPass 10 frameB s2).2.any negSum = true ∧
      (runFrame 10 2 frameB s2).1.idx = 1 ∧
      (runFrame 10 2 frameB s2).2 = (retryPass 10 frameB s2).2 := by
  have hany : (firstPass 10 frameB s2).2.any negSum = true := by
    norm_num [firstPass, findObjectsStats, col, frameB, s2, clampPos, negSum]
  have h := (C2_track_loss_retry 10 2 frameB s2).2 hany
  exact ⟨hany, h.1, h.2.1 (by decide)⟩

lemma runFrame_idx_le (off : Int) (nR : Nat) (f : FrameData) (s : LoopState) :
    s.idx ≤ (runFrame off nR f s).1.idx := by
  unfold runFrame
  split_ifs <;> simp

lemma runLoop_idx_le (off : Int) (nR : Nat) (frames : List FrameData) (s : LoopState) :
    s.idx ≤ (runLoop off nR frames s).1.idx := by
  induction frames generalizing s with
  | nil => simp [runLoop]
  | cons f fs ih =>
    exact le_trans (runFrame_idx_le off nR f s) (ih ((runFrame off nR f s).1))

/-- C4: the shared hypothesis-index pointer starts at 0, is incremented by one
on exactly the frames whose first photometry pass yields a negative aperture
sum, and is never decremented or reset: over any sequence of frames the final
pointer is at least the initial one. -/
theorem C4_hypothesis_index_monotone (t0 : List (List Pos)) (off : Int) (nR : Nat)
    (frames : List FrameData) (f : FrameData) (s : LoopState) :
    (initState t0).idx = 0 ∧
    (runFrame off nR f s).1.idx =
      (if (firstPass off f s).2.any negSum then s.idx + 1 else s.idx) ∧
    s.idx ≤ (runLoop off nR frames s).1.idx := by
  refine ⟨rfl, ?_, runLoop_idx_le off nR frames s⟩
  unfold runFrame
  split_ifs <;> rfl

/-!
## Record accumulation
-/

lemma firstPass_fst_length (off : Int) (f : FrameData) (s : LoopState) :
    (firstPass off f s).1.length = s.table.length := by
  simp [firstPass, findObjectsStats, col]

lemma firstPass_snd_length (off : Int) (f : FrameData) (s : LoopState)
    (hmeas : ∀ qs : List Pos, (f.measure qs).length = qs.length) :
    (firstPass off f s).2.length = s.table.length := by
  simp [firstPass, findObjectsStats, col, hmeas]

lemma tableAfterClamp_length (off : Int) (f : FrameData) (s : LoopState) :
    (tableAfterClamp off f s).length = s.table.length :=
  length_writeCol _ _ _ (firstPass_fst_length off f s)

lemma retryPass_fst_length (off : Int) (f : FrameData) (s : LoopState) :
    (retryPass off f s).1.length = s.table.length := by
  simp [retryPass, findObjectsStats, length_col, tableAfterClamp_length]

lemma retryPass_snd_length (off : Int) (f : FrameData) (s : LoopState)
    (hmeas : ∀ qs : List Pos, (f.measure qs).length = qs.length) :
    (retryPass off f s).2.length = s.table.length := by
  simp [retryPass, findObjectsStats, hmeas, length_col, tableAfterClamp_length]

lemma runFrame_group_length (off : Int) (nR : Nat) (f : FrameData) (s : LoopState)
    (hmeas : ∀ qs : List Pos, (f.measure qs).length = qs.length) :
    (runFrame off nR f s).2.length = s.table.length := by
  unfold runFrame
  split_ifs
  · exact retryPass_snd_length off f s hmeas
  · exact firstPass_snd_length off f s hmeas
  · exact firstPass_snd_length off f s hmeas

lemma runFrame_table_length (off : Int) (nR : Nat) (f : FrameData) (s : LoopState)
    (hmeas : ∀ qs : List Pos, (f.measure qs).length = qs.length) :
    (runFrame off nR f s).1.table.length = s.table.length := by
  unfold runFrame
  split_ifs
  · show (writeCol (writeCol (tableAfterClamp off f s) (s.idx + 1) (retryPass off f s).1)
        (s.idx + 1) ((retryPass off f s).2.map truncCentroid)).length = s.table.length
    rw [length_writeCol, length_writeCol]
    · exact tableAfterClamp_length off f s
    · rw [retryPass_fst_length off f s, tableAfterClamp_length off f s]
    · rw [List.length_map, retryPass_snd_length off f s hmeas, length_writeCol,
        tableAfterClamp_length off f s]
      rw [retryPass_fst_length off f s, tableAfterClamp_length off f s]
  · show (writeCol (tableAfterClamp off f s) s.activeCol
        ((firstPass off f s).2.map truncCentroid)).length = s.table.length
    rw [length_writeCol]
    · exact tableAfterClamp_length off f s
    · rw [List.length_map, firstPass_snd_length off f s hmeas, tableAfterClamp_length off f s]
  · show (writeCol (tableAfterClamp off f s) s.activeCol
        ((firstPass off f s).2.map truncCentroid)).length = s.table.length
    rw [length_writeCol]
    · exact tableAfterClamp_length off f s
    · rw [List.length_map, firstPass_snd_length off f s hmeas, tableAfterClamp_length off f s]

lemma runLoop_groups (off : Int) (nR : Nat) :
    ∀ (frames : List FrameData) (s : LoopState),
      (∀ f ∈ frames, ∀ qs : List Pos, (f.measure qs).length = qs.length) →
      (runLoop off nR frames s).2.length = frames.length ∧
        ∀ g ∈ (runLoop off nR frames s).2, g.length = s.table.length
  | [], _, _ => by simp [runLoop]
  | f :: fs, s, hmeas => by
    have hf := hmeas f (List.mem_cons_self f fs)
    have hfs : ∀ f2 ∈ fs, ∀ qs : List Pos, (f2.measure qs).length = qs.length :=
      fun f2 hm qs => hmeas f2 (List.mem_cons_of_mem f hm) qs
    obtain ⟨ih1, ih2⟩ := runLoop_groups off nR fs (runFrame off nR f s).1 hfs
    constructor
    · simp [runLoop, ih1]
    · intro g hg
      simp only [runLoop, List.mem_cons] at hg
      rcases hg with h | h
      · rw [h]
        exact runFrame_group_length off nR f s hf
      · rw [ih2 g h]
        exact runFrame_table_length off nR f s hf

/-- C7: every processed frame contributes exactly one recorded row per
tracked object — the run's per-frame groups number one per frame, each group
has one row per object, and the output table is the concatenation of those
groups in frame order, so it has `frames × objects` rows; this holds also on
frames whose retry fails (the negative-sum rows are still recorded). -/
theorem C7_one_record_per_object (off : Int) (nR : Nat) (frames : List FrameData)
    (s : LoopState)
    (hmeas : ∀ f ∈ frames, ∀ qs : List Pos, (f.measure qs).length = qs.length) :
    (runLoop off nR frames s).2.length = frames.length ∧
    (∀ g ∈ (runLoop off nR frames s).2, g.length = s.table.length) ∧
    (apertureTable off nR frames s).length = frames.length * s.table.length := by
  obtain ⟨h1, h2⟩ := runLoop_groups off nR frames s hmeas
  refine ⟨h1, h2, ?_⟩
  unfold apertureTable
  rw [List.length_flatten]
  have hrep : (runLoop off nR frames s).2.map List.length
      = List.replicate frames.length s.table.length := by
    rw [List.eq_replicate_iff]
    constructor
    · simp [h1]
    · intro b hb
      obtain ⟨g, hg, hb2⟩ := List.mem_map.mp hb
      rw [← hb2]
      exact h2 g hg
  rw [hrep, List.sum_replicate, smul_eq_mul]

/-- A concrete frame whose oracle reports centroid = position and aperture
sum 1 for every object. -/
def frameA : FrameData :=
  ⟨30, 30, fun ps => ps.map (fun p => (((p.1 : ℚ), (p.2 : ℚ)), 1))⟩

/-- Witness for C7: one frame, one object, one recorded group of one row. -/
theorem C7_one_record_per_object_witness :
    (runLoop 10 1 [frameA] (initState [[(15, 15)]])).2.length = 1 ∧
      (apertureTable 10 1 [frameA] (initState [[(15, 15)]])).length = 1 * 1 := by
  have hmeas : ∀ f ∈ [frameA], ∀ qs : List Pos, (f.measure qs).length = qs.length := by
    intro f hf qs
    rw [List.mem_singleton.mp hf]
    simp [frameA]
  have h := C7_one_record_per_object 10 1 [frameA] (initState [[(15, 15)]]) hmeas
  exact ⟨h.1, h.2.2⟩

/-!
## Mutation of the current-position state
-/

/-- C8 counterexample: the centroid-tracking step does NOT leave the caller's
current-position state unchanged for every input.  `find_objects_stats`
clamps `positions[i][...]` in place, and `positions` is a numpy view of the
caller's array: at frame 30×30 with offset 10 and position (5, 3) the clamp
rule `y - offset < 0` fires and the caller's position becomes (5, 10). -/
theorem C8_tracker_mutates_counterexample :
    (findObjectsStats 10 frameA [(5, 3)]).1 ≠ [(5, 3)] := by
  decide

/-- C8 amended: the centroid-tracking step mutates the caller's
current-position state exactly by clamping — after the call the caller's
positions equal the clamped positions, and they are unchanged precisely on
inputs where no clamp rule fires; the end-of-frame accumulation step is the
other (and only other) mutation of the position state. -/
theorem C8_tracker_clamp_amended (off : Int) (f : FrameData) (ps : List Pos) :
    (findObjectsStats off f ps).1 = ps.map (clampPos f.height f.width off) ∧
    ((∀ p ∈ ps, clampPos f.height f.width off p = p) →
      (findObjectsStats off f ps).1 = ps) := by
  refine ⟨rfl, ?_⟩
  intro h
  show ps.map (clampPos f.height f.width off) = ps
  calc ps.map (clampPos f.height f.width off) = ps.map id :=
        List.map_congr_left (fun p hp => h p hp)
    _ = ps := List.map_id ps

/-- Witness for C8 amended: at an interior position no clamp rule fires and
the tracking step leaves the caller's state unchanged. -/
theorem C8_tracker_clamp_witness :
    (∀ p ∈ [((15 : Int), (15 : Int))], clampPos 30 30 10 p = p) ∧
      (findObjectsStats 10 frameA [(15, 15)]).1 = [(15, 15)] :=
  ⟨by decide, (C8_tracker_clamp_amended 10 frameA [(15, 15)]).2 (by decide)⟩

/-!
## Write-through into the hypothesis table
-/

/-- C9: `positions` is a view of a column of `starting_positions`, so the
end-of-frame update writes through: after a frame is recorded, the column of
the hypothesis table that `positions` views (`activeCol`) holds exactly the
integer-truncated refined centroids of the recorded pass, while every column
that was active at no point of the frame still holds what it held before —
a hypothesis round's file coordinates survive only until its column first
becomes active. -/
theorem C9_position_write_through (off : Int) (nR : Nat) (f : FrameData) (s : LoopState)
    (hrow : ∀ row ∈ s.table, row.length = nR)
    (hactive : s.activeCol < nR)
    (hmeas : ∀ qs : List Pos, (f.measure qs).length = qs.length) :
    col (runFrame off nR f s).1.table (runFrame off nR f s).1.activeCol
      = (runFrame off nR f s).2.map truncCentroid ∧
    (∀ j : Nat, j ≠ s.activeCol → j ≠ (runFrame off nR f s).1.activeCol →
      col (runFrame off nR f s).1.table j = col s.table j) := by
  have l1 := firstPass_fst_length off f s
  have l2 := firstPass_snd_length off f s hmeas
  have lt1 := tableAfterClamp_length off f s
  have rows1 : ∀ row ∈ tableAfterClamp off f s, row.length = nR :=
    rows_writeCol s.table s.activeCol (firstPass off f s).1 nR hrow
  have l3 := retryPass_fst_length off f s
  have l4 := retryPass_snd_length off f s hmeas
  unfold runFrame
  split_ifs with h1 h2
  · -- retry branch: positions now views column s.idx + 1
    have rows2 : ∀ row ∈ writeCol (tableAfterClamp off f s) (s.idx + 1) (retryPass off f s).1,
        row.length = nR :=
      rows_writeCol _ _ _ nR rows1
    have lw2 : (writeCol (tableAfterClamp off f s) (s.idx + 1) (retryPass off f s).1).length
        = s.table.length :=
      (length_writeCol _ _ _ (by rw [l3, lt1])).trans lt1
    constructor
    · show col (writeCol (writeCol (tableAfterClamp off f s) (s.idx + 1) (retryPass off f s).1)
          (s.idx + 1) ((retryPass off f s).2.map truncCentroid)) (s.idx + 1)
        = (retryPass off f s).2.map truncCentroid
      exact col_writeCol_self _ _ _ (by rw [List.length_map, l4, lw2])
        (fun row hm => by rw [rows2 row hm]; exact h2)
    · intro j hja hjk
      show col (writeCol (writeCol (tableAfterClamp off f s) (s.idx + 1) (retryPass off f s).1)
          (s.idx + 1) ((retryPass off f s).2.map truncCentroid)) j = col s.table j
      rw [col_writeCol_ne _ _ _ _ (by rw [List.length_map, l4, lw2]) hjk,
        col_writeCol_ne _ _ _ _ (by rw [l3, lt1]) hjk]
      exact col_writeCol_ne s.table s.activeCol j (firstPass off f s).1 l1 hja
  · -- retry exhausted: positions still views the old column
    constructor
    · show col (writeCol (tableAfterClamp off f s) s.activeCol
          ((firstPass off f s).2.map truncCentroid)) s.activeCol
        = (firstPass off f s).2.map truncCentroid
      exact col_writeCol_self _ _ _ (by rw [List.length_map, l2, lt1])
        (fun row hm => by rw [rows1 row hm]; exact hactive)
    · intro j hja _
      show col (writeCol (tableAfterClamp off f s) s.activeCol
          ((firstPass off f s).2.map truncCentroid)) j = col s.table j
      rw [col_writeCol_ne _ _ _ _ (by rw [List.length_map, l2, lt1]) hja]
      exact col_writeCol_ne s.table s.activeCol j (firstPass off f s).1 l1 hja
  · -- no tracking failure
    constructor
    · show col (writeCol (tableAfterClamp off f s) s.activeCol
          ((firstPass off f s).2.map truncCentroid)) s.activeCol
        = (firstPass off f s).2.map truncCentroid
      exact col_writeCol_self _ _ _ (by rw [List.length_map, l2, lt1])
        (fun row hm => by rw [rows1 row hm]; exact hactive)
    · intro j hja _
      show col (writeCol (tableAfterClamp off f s) s.activeCol
          ((firstPass off f s).2.map truncCentroid)) j = col s.table j
      rw [col_writeCol_ne _ _ _ _ (by rw [List.length_map, l2, lt1]) hja]
      exact col_writeCol_ne s.table s.activeCol j (firstPass off f s).1 l1 hja

/-- A concrete loop state with one object and two hypothesis rounds, for the
C9 witness. -/
def s9 : LoopState :=
  ⟨[[(15, 15), (20, 20)]], 0, 0⟩

/-- Witness for C9 at a frame with no tracking failure: the active column of
the table ends up holding the truncated centroids of the recorded rows. -/
theorem C9_position_write_through_witness :
    (0 : Nat) < 2 ∧
      col (runFrame 10 2 frameA s9).1.table (runFrame 10 2 frameA s9).1.activeCol
        = (runFrame 10 2 frameA s9).2.map truncCentroid :=
  ⟨by decide,
   (C9_position_write_through 10 2 frameA s9 (by decide) (by decide)
      (fun qs => by simp [frameA])).1⟩

/-!
## Coordinate-file parsing (module top level)

  with open(coord_file, "r+") as file:
      text = file.read()
      lines = text.split('\n')
      for line in lines:
          name, coord = line.split(':')[0], line.split(':')[1]
          xcor, ycor = int(float(coord.split(',')[0][1:])), int(float(coord.split(',')[1][:-1]))
          if name in names:
              starting_positions[names.index(name)].append([xcor, ycor])
          else:
              names.append(name)
              starting_positions.append([[xcor, ycor]])

Text is modelled as a list of characters.  Python's `str.split` on a
one-character separator keeps empty pieces and always yields at least one
piece; `splitOnChar` below has exactly that semantics.  Python's `float`
builtin is external and is taken as a parameter (`none` where it would
raise ValueError).
-/

/-- Python `text.split(c)` for a one-character separator: splits at every
occurrence, keeps empty pieces, always returns at least one piece. -/
def splitOnChar (c : Char) : List Char → List (List Char)
  | [] => [[]]
  | a :: rest =>
    if a = c then [] :: splitOnChar c rest
    else
      match splitOnChar c rest with
      | [] => [[a]]
      | s :: ss => (a :: s) :: ss

/-- One line of the coordinate file:
`name, coord = line.split(':')[0], line.split(':')[1]` then
`int(float(coord.split(',')[0][1:]))` and `int(float(coord.split(',')[1][:-1]))`.
Returns `none` exactly where the source raises an unhandled exception: an
IndexError from indexing a split with fewer than two pieces, or a
ValueError from `float`. -/
def parseLine (pyFloat : List Char → Option ℚ) (line : List Char) :
    Option (List Char × Int × Int) :=
  match splitOnChar ':' line with
  | name :: coord :: _ =>
    match splitOnChar ',' coord with
    | c0 :: c1 :: _ =>
      match pyFloat (c0.drop 1), pyFloat c1.dropLast with
      | some xf, some yf => some (name, truncQ xf, truncQ yf)
      | _, _ => none
    | _ => none
  | _ => none

/-- `names.index(name)` guarded by `name in names`. -/
def indexOfName (name : List Char) : List (List Char) → Option Nat
  | [] => none
  | n :: ns => if n = name then some 0 else (indexOfName name ns).map (fun k => k + 1)

/-- `starting_positions[k].append([xcor, ycor])`. -/
def appendAt : List (List Pos) → Nat → Pos → List (List Pos)
  | [], _, _ => []
  | l :: ls, 0, p => (l ++ [p]) :: ls
  | l :: ls, k + 1, p => l :: appendAt ls k p

/-- The parsing loop `for line in lines`, carrying `names` and
`starting_positions`; every line of the split is processed in order, and an
unparseable line aborts the run fatally (`Except.error` with the offending
line, modelling the unhandled exception). -/
def parseLoop (pyFloat : List Char → Option ℚ) :
    List (List Char) → List (List Char) → List (List Pos) →
    Except (List Char) (List (List Char) × List (List Pos))
  | [], names, sp => Except.ok (names, sp)
  | line :: rest, names, sp =>
    match parseLine pyFloat line with
    | none => Except.error line
    | some (name, xc, yc) =>
      match indexOfName name names with
      | some k => parseLoop pyFloat rest names (appendAt sp k (xc, yc))
      | none => parseLoop pyFloat rest (names ++ [name]) (sp ++ [[(xc, yc)]])

/-- Parsing of the whole coordinate file: `lines = text.split('\n')`, then
the loop from empty `names` and `starting_positions`; runs before any frame
is processed. -/
def parseCoordFile (pyFloat : List Char → Option ℚ) (text : List Char) :
    Except (List Char) (List (List Char) × List (List Pos)) :=
  parseLoop pyFloat (splitOnChar '\n' text) [] []

lemma splitOnChar_ne_nil (c : Char) (xs : List Char) : splitOnChar c xs ≠ [] := by
  cases xs with
  | nil => simp [splitOnChar]
  | cons a rest =>
    simp only [splitOnChar]
    split_ifs
    · simp
    · cases h : splitOnChar c rest <;> simp

lemma splitOnChar_append_sep (c : Char) (xs : List Char) :
    splitOnChar c (xs ++ [c]) = splitOnChar c xs ++ [[]] := by
  induction xs with
  | nil => simp [splitOnChar]
  | cons a rest ih =>
    have hstep : (a :: rest) ++ [c] = a :: (rest ++ [c]) := rfl
    rw [hstep]
    simp only [splitOnChar]
    split_ifs
    · rw [ih]
      rfl
    · rw [ih]
      cases h : splitOnChar c rest with
      | nil => exact absurd h (splitOnChar_ne_nil c rest)
      | cons s ss => simp [h]

lemma parseLoop_error_of_bad_line (pyFloat : List Char → Option ℚ) :
    ∀ (lines : List (List Char)) (names : List (List Char)) (sp : List (List Pos)),
      (∃ l ∈ lines, (splitOnChar ':' l).length < 2) →
      ∃ e, parseLoop pyFloat lines names sp = Except.error e
  | [], _, _, hbad => by simp at hbad
  | line :: rest, names, sp, hbad => by
    by_cases hline : (splitOnChar ':' line).length < 2
    · have hnone : parseLine pyFloat line = none := by
        unfold parseLine
        cases h : splitOnChar ':' line with
        | nil => simp [h]
        | cons n tail =>
          cases tail with
          | nil => simp [h]
          | cons c2 t2 =>
            rw [h] at hline
            simp only [List.length_cons] at hline
            exact absurd hline (by omega)
      exact ⟨line, by simp [parseLoop, hnone]⟩
    · have hrest : ∃ l ∈ rest, (splitOnChar ':' l).length < 2 := by
        rcases hbad with ⟨l, hm, hl⟩
        rcases List.mem_cons.mp hm with h | hm2
        · rw [h] at hl
          exact absurd hl hline
        · exact ⟨l, hm2, hl⟩
      unfold parseLoop
      cases hp : parseLine pyFloat line with
      | none => exact ⟨line, by simp⟩
      | some v =>
        obtain ⟨name, xc, yc⟩ := v
        simp only []
        cases hi : indexOfName name names with
        | some k =>
          simpa using parseLoop_error_of_bad_line pyFloat rest names (appendAt sp k (xc, yc)) hrest
        | none =>
          simpa using
            parseLoop_error_of_bad_line pyFloat rest (names ++ [name]) (sp ++ [[(xc, yc)]]) hrest

/-- C10: the coordinate-file parsing processes the newline-separated lines in
order, including empty ones, and aborts fatally — the unhandled IndexError
from `line.split(':')[1]` — as soon as some line has no ':' separator;
consequently every file whose last character is a newline (so whose split
ends with an empty line) is fatally rejected before any frame is processed,
even when all its other lines are well-formed. -/
theorem C10_parser_aborts (pyFloat : List Char → Option ℚ) (text : List Char)
    (hbad : ∃ l ∈ splitOnChar '\n' text, (splitOnChar ':' l).length < 2) :
    (∃ e, parseCoordFile pyFloat text = Except.error e) ∧
    ∀ pre : List Char, ∃ e, parseCoordFile pyFloat (pre ++ ['\n']) = Except.error e := by
  constructor
  · exact parseLoop_error_of_bad_line pyFloat _ [] [] hbad
  · intro pre
    show ∃ e, parseLoop pyFloat (splitOnChar '\n' (pre ++ ['\n'])) [] [] = Except.error e
    apply parseLoop_error_of_bad_line
    rw [splitOnChar_append_sep]
    exact ⟨[], by simp, by simp [splitOnChar]⟩

/-- Witness for C10: the one-line file "A0620:(478, 565)" followed by a
trailing newline is rejected (its split ends with an empty line), whatever
the float parser does. -/
theorem C10_parser_aborts_witness :
    (∃ l ∈ splitOnChar '\n' "A0620:(478, 565)\n".toList,
        (splitOnChar ':' l).length < 2) ∧
      ∃ e, parseCoordFile (fun _ => some 0) "A0620:(478, 565)\n".toList = Except.error e :=
  ⟨by decide,
   (C10_parser_aborts (fun _ => some 0) "A0620:(478, 565)\n".toList (by decide)).1⟩

end AperturePhotometry
